import Mathlib

/-!
Verification of the room-session engine of `src/server.js` (virtual-dj-backend).

The socket handlers of the server are shallowly embedded as pure Lean
functions over an explicit registry state:

* the process-wide `rooms` object becomes an insertion-ordered association
  list `Registry` (JS object string keys preserve insertion order, which is
  what the `for ... in` disconnect loop iterates in);
* a room object becomes the structure `Room`;
* JS `Set` values (`track.votes`) become `Finset String`;
* `Date.now()` timestamps become `Nat` milliseconds, supplied as an
  explicit `now` argument;
* the Firestore collaborator is external: the success of an awaited
  `add(...)` call is an explicit `Bool` argument, and an `await` that is
  not wrapped in `try/catch` aborts the rest of the handler when it fails
  (the promise rejection escapes), which the embedding models by returning
  the partial effect record reached up to that point.
-/

namespace VirtualDJ

/-- One entry of `rooms[roomId].guests`: `{ id: socket.id, username: user.displayName }`. -/
structure Participant where
  id : String
  username : String
deriving DecidableEq

/-- One entry of `rooms[roomId].queue`:
`{ id: videoId, title, suggestedBy, votes: Set }`. -/
structure Candidate where
  id : String
  title : String
  suggestedBy : String
  votes : Finset String
deriving DecidableEq

/-- The per-room live state stored in `rooms[roomId]` (server.js lines 68-78). -/
structure Room where
  hostId : String
  guests : List Participant
  currentVideoId : String
  playbackState : String
  lastSeekTime : Nat
  queue : List Candidate
  lastSuggestionTime : Nat
  maxGuests : Nat
deriving DecidableEq

/-- The process-wide `rooms` object: insertion-ordered association list. -/
abbrev Registry := List (String × Room)

/-- `rooms[roomId]` lookup (`undefined` becomes `none`). -/
def roomLookup (reg : Registry) (rid : String) : Option Room :=
  match reg with
  | [] => none
  | (k, r) :: rest => if k = rid then some r else roomLookup rest rid

/-- `rooms[roomId] = room`: JS object assignment keeps the position of an
existing key and appends a new key at the end. -/
def setRoom (reg : Registry) (rid : String) (room : Room) : Registry :=
  match reg with
  | [] => [(rid, room)]
  | (k, r) :: rest =>
    if k = rid then (k, room) :: rest else (k, r) :: setRoom rest rid room

/-- The fresh room built by the `create-room` handler (server.js lines 68-78).
`maxGuests` is the payload field; `none` models an absent field and
`maxGuests || 10` maps both `undefined` and `0` (JS falsy) to `10`. -/
def createRoom (hostId : String) (maxGuests : Option Nat) : Room :=
  { hostId := hostId
    guests := []
    currentVideoId := "iwncGYFPxmU"
    playbackState := "PAUSED"
    lastSeekTime := 0
    queue := []
    lastSuggestionTime := 0
    maxGuests :=
      match maxGuests with
      | none => 10
      | some 0 => 10
      | some n => n }

/-- The `create-room` handler: `roomId = uuidv4().slice(0, 6)` is an external
random draw, passed in as `draw`; the handler stores the fresh room under it
with no collision check and acks the token. -/
def createRoomHandler (reg : Registry) (draw hostId : String)
    (maxGuests : Option Nat) : Registry × String :=
  (setRoom reg draw (createRoom hostId maxGuests), draw)

/-- The value passed to the `join-room` callback. -/
inductive JoinAck where
  | failure (message : String)
  | success
deriving DecidableEq

/-- Observable outcome of one `join-room` event: the registry afterwards,
which emits happened, and the callback value (`none` when the handler
aborted before calling back). -/
structure JoinOutcome where
  reg : Registry
  sentRoomState : Bool
  sentJoinMessage : Bool
  ack : Option JoinAck
deriving DecidableEq

/-- The `join-room` handler (server.js lines 85-134).
Order of effects in the source: NotFound check, capacity check,
`guests.push`, chat-history fetch (inside `try/catch`, so its failure only
logs), `socket.emit('room-state', ...)`, then
`await db...add(joinMsg)` — this `await` is NOT inside a `try/catch`, so a
rejected write (`persistOk = false`) aborts the handler before the
`new-message` broadcast and before `callback({ success: true })`. -/
def joinRoom (reg : Registry) (roomId displayName connId : String)
    (persistOk : Bool) : JoinOutcome :=
  match roomLookup reg roomId with
  | none => ⟨reg, false, false, some (JoinAck.failure "Room not found")⟩
  | some room =>
    if room.guests.length ≥ room.maxGuests then
      ⟨reg, false, false, some (JoinAck.failure "This room is full.")⟩
    else
      let room2 := { room with guests := room.guests ++ [⟨connId, displayName⟩] }
      let reg2 := setRoom reg roomId room2
      if persistOk then
        ⟨reg2, true, true, some JoinAck.success⟩
      else
        ⟨reg2, true, false, none⟩

/-- Observable outcome of one `send-message` event. -/
structure SendOutcome where
  broadcastSent : Bool
  completed : Bool
deriving DecidableEq

/-- The `send-message` handler (server.js lines 149-169): if the room
exists, the Firestore `add` is wrapped in `try/catch` (failure is only
logged), and `io.to(roomId).emit('new-message', msg)` runs afterwards
regardless of the persistence outcome `persistOk`. -/
def sendMessage (reg : Registry) (roomId : String) (persistOk : Bool) : SendOutcome :=
  match roomLookup reg roomId with
  | none => ⟨false, true⟩
  | some _ =>
    match persistOk with
    | true => ⟨true, true⟩
    | false => ⟨true, true⟩

/-- Result of one `suggest-track` event, mirroring the four callback shapes
of server.js lines 172-224: room missing, duplicate track id, cooldown
rejection (`Please wait N seconds.`), and acceptance with the
`cooldownActive` informational flag. -/
inductive SuggestResult where
  | notFound
  | conflict
  | rateLimited (timeLeft : Nat)
  | accepted (cooldownActive : Bool)
deriving DecidableEq

/-- The accepted-suggestion mutation (server.js lines 204-212): append a
candidate with an empty voter set and stamp `lastSuggestionTime`.
`title || videoId` and `...?.username || 'Host'` treat the empty string as
JS-falsy. -/
def pushSuggestion (room : Room) (videoId title connId : String) (now : Nat) : Room :=
  let suggestedBy :=
    match room.guests.find? (fun g => g.id = connId) with
    | some g => if g.username = "" then "Host" else g.username
    | none => "Host"
  { room with
      queue := room.queue ++
        [⟨videoId, if title = "" then videoId else title, suggestedBy, ∅⟩]
      lastSuggestionTime := now }

/-- The room-level body of the `suggest-track` handler (server.js lines
172-224), given that the room exists. Times are `Nat` milliseconds; for
`room.lastSuggestionTime ≤ now` (the only case a running clock produces)
the `Nat` subtraction agrees with the JS number arithmetic, and
`Math.ceil(m / 1000)` on an integer `0 < m` is `(m + 999) / 1000`. -/
def suggestTrack (room : Room) (videoId title connId : String) (now : Nat) :
    SuggestResult × Room :=
  if room.queue.any (fun v => v.id = videoId) then
    (SuggestResult.conflict, room)
  else if 5 ≤ room.guests.length + 1 then
    if now - room.lastSuggestionTime < 60000 then
      (SuggestResult.rateLimited
        ((60000 - (now - room.lastSuggestionTime) + 999) / 1000), room)
    else
      (SuggestResult.accepted true, pushSuggestion room videoId title connId now)
  else
    (SuggestResult.accepted false, pushSuggestion room videoId title connId now)

/-- Registry-level `suggest-track`: `Room not found` check, then the
room-level body; an accepted suggestion mutates the stored room in place. -/
def suggestTrackHandler (reg : Registry) (roomId videoId title connId : String)
    (now : Nat) : SuggestResult × Registry :=
  match roomLookup reg roomId with
  | none => (SuggestResult.notFound, reg)
  | some room =>
    match suggestTrack room videoId title connId now with
    | (SuggestResult.accepted b, room2) =>
      (SuggestResult.accepted b, setRoom reg roomId room2)
    | (res, _) => (res, reg)

/-- The voter-set toggle of `vote-track` (server.js lines 239-247):
`has → delete`, otherwise `add`. -/
def toggleVote (u : String) (s : Finset String) : Finset String :=
  if u ∈ s then s.erase u else insert u s

/-- Effect of one `vote-track` call on the candidate it hits. -/
def voteCandidate (u : String) (t : Candidate) : Candidate :=
  { t with votes := toggleVote u t.votes }

/-- `queue.find(item => item.id === videoId)` followed by in-place mutation
of the found element: rewrite the first matching entry, keep the rest. -/
def updateFirstMatching (videoId : String) (f : Candidate → Candidate) :
    List Candidate → List Candidate
  | [] => []
  | c :: cs =>
    if c.id = videoId then f c :: cs
    else c :: updateFirstMatching videoId f cs

/-- The room-level body of the `vote-track` handler (server.js lines
227-263): toggle the caller's id in the first matching candidate's voter
set; no-op when no candidate matches. There is no membership or host
check anywhere in the handler. -/
def voteTrack (room : Room) (videoId userId : String) : Room :=
  { room with queue := updateFirstMatching videoId (voteCandidate userId) room.queue }

/-- `[...queue].sort((a, b) => b.votes.size - a.votes.size)`: JS
`Array.prototype.sort` is stable (ECMAScript 2019), and with the
consistent comparator above its result is the unique stable
descending-by-vote-count ordering, computed here by insertion into the
last position among equals. -/
def orderedInsertDesc (c : Candidate) : List Candidate → List Candidate
  | [] => [c]
  | y :: ys =>
    if y.votes.card ≤ c.votes.card then c :: y :: ys
    else y :: orderedInsertDesc c ys

/-- Stable descending sort by vote count (see `orderedInsertDesc`). -/
def sortByVotesDesc : List Candidate → List Candidate
  | [] => []
  | c :: cs => orderedInsertDesc c (sortByVotesDesc cs)

/-- The `play-top-voted` handler (server.js lines 266-311): ignored unless
the caller is the host and the queue is non-empty; otherwise the head of
the vote-sorted copy is played (`currentVideoId`, `PLAYING`, seek 0) and
filtered out of the queue by id. The source's `forEach` that backfills a
missing `votes` set is a no-op here since `votes` is always present. -/
def playTopVoted (room : Room) (callerId : String) : Room :=
  if room.hostId = callerId then
    if room.queue.length = 0 then room
    else
      match (sortByVotesDesc room.queue).head? with
      | none => room
      | some top =>
        { room with
            currentVideoId := top.id
            playbackState := "PLAYING"
            lastSeekTime := 0
            queue := room.queue.filter (fun v => v.id ≠ top.id) }
  else room

/-- Broadcasts produced by the `disconnect` handler. -/
inductive Emit where
  | hostLeft (roomId : String)
  | leftMessage (roomId : String) (username : String)
deriving DecidableEq

/-- `guests.findIndex(g => g.id === connId)` + `splice(guestIndex, 1)`:
remove the first matching participant, returning it and the rest. -/
def removeGuest (connId : String) : List Participant →
    Option (Participant × List Participant)
  | [] => none
  | g :: gs =>
    if g.id = connId then some (g, gs)
    else
      match removeGuest connId gs with
      | none => none
      | some (r, gs2) => some (r, g :: gs2)

/-- The `disconnect` handler (server.js lines 316-342): iterate the rooms
in insertion order; on the first room whose host is the leaver, emit
`host-left`, delete the room and `break`; otherwise on the first room
containing the leaver as guest, splice it out, emit the system left
message (the Firestore `add` is fire-and-forget, never awaited) and
`break`; otherwise continue. -/
def disconnect (connId : String) : Registry → Registry × List Emit
  | [] => ([], [])
  | (rid, room) :: rest =>
    if room.hostId = connId then
      (rest, [Emit.hostLeft rid])
    else
      match removeGuest connId room.guests with
      | some (g, gs) =>
        ((rid, { room with guests := gs }) :: rest, [Emit.leftMessage rid g.username])
      | none =>
        ((rid, room) :: (disconnect connId rest).1, (disconnect connId rest).2)

/-! Concrete fixtures used by counterexamples and witnesses. -/

/-- A guest connection used in several scenarios. -/
def partC : Participant := ⟨ "c", "Carol" ⟩

/-- A queued candidate with no votes. -/
def candA : Candidate := ⟨ "a1", "A", "Host", ∅ ⟩

/-- A queued candidate with one vote. -/
def candB : Candidate := ⟨ "b1", "B", "Host", { "u1" } ⟩

/-- An empty default room hosted by `h1`. -/
def roomC1 : Room := createRoom "h1" none

/-- Registry holding just `roomC1` under token `r1`. -/
def regC1 : Registry := [( "r1", roomC1 )]

/-- A live room bound to the 6-character token `ab12cd`. -/
def roomOldC3 : Room := createRoom "h1" (some 3)

/-- Registry in which `ab12cd` is already bound. -/
def regC3 : Registry := [( "ab12cd", roomOldC3 )]

/-- Registry in which the same connection `h` hosts two rooms. -/
def regC4 : Registry := [( "r1", createRoom "h" none ), ( "r2", createRoom "h" (some 5) )]

/-- Room hosted by `h1` with Carol as its only guest. -/
def roomR1C8 : Room := { createRoom "h1" none with guests := [partC] }

/-- Room hosted by `h2` with Carol as its only guest. -/
def roomR2C8 : Room := { createRoom "h2" none with guests := [partC] }

/-- Registry in which Carol is a guest of both rooms. -/
def regC8 : Registry := [( "r1", roomR1C8 ), ( "r2", roomR2C8 )]

/-- Room with 4 guests (5 total participants) whose queue already holds
track `v1`, last suggestion at time 0. -/
def room5C6 : Room :=
  { createRoom "h" none with
      guests := [⟨ "g1", "G1" ⟩, ⟨ "g2", "G2" ⟩, ⟨ "g3", "G3" ⟩, ⟨ "g4", "G4" ⟩]
      queue := [⟨ "v1", "T1", "G1", ∅ ⟩] }

/-- A room with fewer than 5 total participants. -/
def roomSmallW : Room := createRoom "h" none

/-- Registry holding `roomSmallW` under `r1`. -/
def regSmall : Registry := [( "r1", roomSmallW )]

/-- Room with a two-element queue: `candA` (0 votes) then `candB` (1 vote). -/
def roomW2 : Room := { createRoom "h" none with queue := [candA, candB] }

/-- Room with a one-element queue, used for vote-toggle scenarios. -/
def roomVW : Room := { createRoom "h" none with queue := [candA] }

/-! Helper lemmas. -/

/-- Toggling the same connection twice restores the voter set. -/
theorem toggleVote_toggleVote (u : String) (s : Finset String) :
    toggleVote u (toggleVote u s) = s := by
  unfold toggleVote
  by_cases h : u ∈ s
  · simp [h, Finset.insert_erase]
  · simp [h, Finset.erase_insert]

/-- Double application of the vote rewrite on a queue is the identity. -/
theorem updateFirstMatching_vote_invol (v u : String) :
    ∀ l : List Candidate,
      updateFirstMatching v (voteCandidate u)
        (updateFirstMatching v (voteCandidate u) l) = l := by
  intro l
  induction l with
  | nil => rfl
  | cons c cs ih =>
    by_cases h : c.id = v
    · simp [updateFirstMatching, h, voteCandidate, toggleVote_toggleVote]
      rw [← h]
    · simp [updateFirstMatching, h, ih]

/-- Looking up the key just written returns the written room. -/
theorem roomLookup_setRoom_self (reg : Registry) (rid : String) (room : Room) :
    roomLookup (setRoom reg rid room) rid = some room := by
  induction reg with
  | nil => simp [setRoom, roomLookup]
  | cons p rest ih =>
    obtain ⟨k, r⟩ := p
    by_cases h : k = rid
    · simp [setRoom, roomLookup, h]
    · simp [setRoom, roomLookup, h, ih]

/-- Writing one key leaves every other key's binding unchanged. -/
theorem roomLookup_setRoom_other (reg : Registry) (rid rid2 : String) (room : Room)
    (h : rid2 ≠ rid) :
    roomLookup (setRoom reg rid room) rid2 = roomLookup reg rid2 := by
  induction reg with
  | nil => simp [setRoom, roomLookup, Ne.symm h]
  | cons p rest ih =>
    obtain ⟨k, r⟩ := p
    by_cases hk : k = rid
    · subst hk
      simp [setRoom, roomLookup, Ne.symm h]
    · simp [setRoom, roomLookup, hk, ih]

/-! Claim theorems. -/

/-- Claim C9 (confirmed): every created room starts PAUSED at seek offset 0
with an empty queue and the fixed non-empty default video id, and a missing
or zero `maxGuests` payload falls back to capacity 10, so no room ever has
capacity 0. -/
theorem create_room_defaults_C9 (h : String) (mg : Option Nat) :
    (createRoom h mg).playbackState = "PAUSED" ∧
    (createRoom h mg).lastSeekTime = 0 ∧
    (createRoom h mg).queue = [] ∧
    (createRoom h mg).currentVideoId = "iwncGYFPxmU" ∧
    0 < (createRoom h mg).currentVideoId.length ∧
    (createRoom h none).maxGuests = 10 ∧
    (createRoom h (some 0)).maxGuests = 10 ∧
    0 < (createRoom h mg).maxGuests := by
  refine ⟨rfl, rfl, rfl, rfl, ?_, rfl, rfl, ?_⟩
  · show 0 < ( "iwncGYFPxmU" : String).length
    decide
  rcases mg with _ | n
  · simp [createRoom]
  · rcases n with _ | m
    · simp [createRoom]
    · simp [createRoom]

/-- Claim C9 witness: the defaulting evaluated at a concrete input. -/
theorem create_room_defaults_C9_witness :
    (createRoom "h" none).maxGuests = 10 :=
  (create_room_defaults_C9 "h" none).2.2.2.2.2.1

/-- Claim C5 (confirmed): voting twice by the same connection on the same
candidate restores the whole room (in particular the candidate's voter set
and vote count), and a single toggle never changes the membership of any
connection other than the caller — the set changes by exactly one element. -/
theorem vote_toggle_involutive_C5 (room : Room) (v u : String) :
    voteTrack (voteTrack room v u) v u = room ∧
    (∀ s : Finset String, ∀ x : String, x ≠ u → (x ∈ toggleVote u s ↔ x ∈ s)) ∧
    (∀ s : Finset String,
      (toggleVote u s).card = s.card + 1 ∨ s.card = (toggleVote u s).card + 1) := by
  refine ⟨?_, ?_, ?_⟩
  · show voteTrack (voteTrack room v u) v u = room
    unfold voteTrack
    simp [updateFirstMatching_vote_invol]
  · intro s x hx
    unfold toggleVote
    by_cases h : u ∈ s
    · simp [h, Finset.mem_erase, hx]
    · simp [h, Finset.mem_insert, hx]
  · intro s
    unfold toggleVote
    by_cases h : u ∈ s
    · right
      rw [if_pos h]
      exact (Finset.card_erase_add_one h).symm
    · left
      rw [if_neg h]
      exact Finset.card_insert_of_not_mem h

/-- Claim C5 witness: a double toggle on a concrete room is the identity. -/
theorem vote_toggle_involutive_C5_witness :
    voteTrack (voteTrack roomVW "a1" "u1") "a1" "u1" = roomVW :=
  (vote_toggle_involutive_C5 roomVW "a1" "u1").1

/-- Claim C10 (confirmed): `vote-track` performs no membership or
authorization check — for a caller that is neither the host nor in the
roster, the queue is rewritten by exactly the first-match voter toggle, and
the effect on the queue is identical for any roster and host whatsoever. -/
theorem vote_no_auth_C10 (room : Room) (v u host2 : String)
    (guests2 : List Participant)
    (_hguest : ∀ g ∈ room.guests, g.id ≠ u) (_hhost : room.hostId ≠ u) :
    (voteTrack room v u).queue
        = updateFirstMatching v (voteCandidate u) room.queue ∧
    (voteTrack room v u).queue
        = (voteTrack { room with hostId := host2, guests := guests2 } v u).queue :=
  ⟨rfl, rfl⟩

/-- Claim C10 witness: a stranger's vote on a concrete room equals the same
vote issued with a rewritten roster. -/
theorem vote_no_auth_C10_witness :
    (voteTrack roomVW "a1" "stranger").queue
      = (voteTrack { roomVW with hostId := "x", guests := [] } "a1" "stranger").queue :=
  (vote_no_auth_C10 roomVW "a1" "stranger" "x" [] (by decide) (by decide)).2

/-- Claim C1 counterexample: in a concrete joinable room, a failed durable
append of the system joined message aborts the `join-room` handler before
the room-wide broadcast and before the success callback — the broadcast
does not occur and the operation does not complete. -/
theorem join_persist_failure_blocks_broadcast_C1_cex :
    roomLookup regC1 "r1" = some roomC1 ∧
    roomC1.guests.length < roomC1.maxGuests ∧
    (joinRoom regC1 "r1" "Dave" "d1" false).sentJoinMessage = false ∧
    (joinRoom regC1 "r1" "Dave" "d1" false).ack = none := by
  decide

/-- Claim C1 as amended: for `send-message` the durable append is inside
`try/catch`, so its failure never blocks the broadcast or the handler; for
the system joined message of `join-room` the append is awaited with no
catch, so its failure suppresses both the joined broadcast and the success
ack, even though the guest was already added to the roster. -/
theorem chat_persistence_scope_C1_amended (reg : Registry) (roomId : String)
    (room : Room) (dn conn : String)
    (hlook : roomLookup reg roomId = some room)
    (hcap : room.guests.length < room.maxGuests) :
    (sendMessage reg roomId false).broadcastSent = true ∧
    (sendMessage reg roomId false).completed = true ∧
    (sendMessage reg roomId true).broadcastSent = true ∧
    (joinRoom reg roomId dn conn true).sentJoinMessage = true ∧
    (joinRoom reg roomId dn conn true).ack = some JoinAck.success ∧
    (joinRoom reg roomId dn conn false).sentJoinMessage = false ∧
    (joinRoom reg roomId dn conn false).ack = none ∧
    (joinRoom reg roomId dn conn false).reg = (joinRoom reg roomId dn conn true).reg := by
  have hnotfull : ¬ (room.guests.length ≥ room.maxGuests) := by omega
  refine ⟨?_, ?_, ?_, ?_, ?_, ?_, ?_, ?_⟩ <;>
    simp [sendMessage, joinRoom, hlook, hnotfull]

/-- Claim C1 witness: the amended behaviour evaluated on a concrete room. -/
theorem chat_persistence_scope_C1_witness :
    (joinRoom regC1 "r1" "Dave" "d1" false).ack = none :=
  (chat_persistence_scope_C1_amended regC1 "r1" roomC1 "Dave" "d1" (by decide)
    (by decide)).2.2.2.2.2.2.1

/-- Claim C3 counterexample: with token `ab12cd` already bound to a live
room, a create-room call whose random draw is `ab12cd` yields a token that
IS currently bound at the moment of creation, and the handler silently
overwrites the live room with the fresh one. -/
theorem create_room_collision_C3_cex :
    (createRoomHandler regC3 "ab12cd" "h2" none).2 = "ab12cd" ∧
    roomLookup regC3 "ab12cd" = some roomOldC3 ∧
    roomLookup ((createRoomHandler regC3 "ab12cd" "h2" none).1) "ab12cd"
      = some (createRoom "h2" none) ∧
    createRoom "h2" none ≠ roomOldC3 := by
  decide

/-- Claim C3 as amended: create-room always binds the drawn token to the
fresh room and leaves all other bindings unchanged; the token is unbound at
the moment of creation only when the unchecked random draw happens to miss
every live RoomId — a colliding draw silently overwrites the live room. -/
theorem create_room_binding_C3_amended (reg : Registry) (draw host : String)
    (mg : Option Nat) :
    roomLookup ((createRoomHandler reg draw host mg).1) draw
      = some (createRoom host mg) ∧
    ∀ rid : String, rid ≠ draw →
      roomLookup ((createRoomHandler reg draw host mg).1) rid = roomLookup reg rid := by
  constructor
  · exact roomLookup_setRoom_self reg draw (createRoom host mg)
  · intro rid hr
    exact roomLookup_setRoom_other reg draw rid (createRoom host mg) hr

/-- Claim C3 witness: a non-colliding draw binds the fresh room. -/
theorem create_room_binding_C3_witness :
    roomLookup ((createRoomHandler regC3 "zz99aa" "h3" none).1) "zz99aa"
      = some (createRoom "h3" none) :=
  (create_room_binding_C3_amended regC3 "zz99aa" "h3" none).1

/-- Claim C6 counterexample: in a concrete room with 5 total participants
whose queue already holds track `v1`, and more than 60 seconds after the
last suggestion (where the claim demands acceptance), suggesting `v1`
fails Conflict instead — the duplicate check precedes the cooldown logic. -/
theorem suggest_duplicate_not_rate_limited_C6_cex :
    5 ≤ room5C6.guests.length + 1 ∧
    room5C6.lastSuggestionTime + 60000 ≤ 70000 ∧
    (suggestTrack room5C6 "v1" "T" "g1" 70000).1 = SuggestResult.conflict ∧
    (suggestTrack room5C6 "v1" "T" "g1" 70000).1 ≠ SuggestResult.accepted true ∧
    (suggestTrack room5C6 "v1" "T" "g1" 70000).2 = room5C6 := by
  decide

/-- Claim C6 as amended: for a room with at least 5 total participants and
a suggested trackId NOT already in the queue, a suggestion strictly less
than 60 seconds after `lastSuggestionTime` fails RateLimited with the
positive ceiling of the remaining seconds and leaves the room unmutated,
and one 60 seconds or later is accepted and marked cooldown-gated (a
duplicate trackId instead fails Conflict regardless of timing). -/
theorem suggest_cooldown_C6_amended (room : Room) (videoId title connId : String)
    (now : Nat)
    (hdup : ∀ c ∈ room.queue, c.id ≠ videoId)
    (h5 : 5 ≤ room.guests.length + 1)
    (_hts : room.lastSuggestionTime ≤ now) :
    (now - room.lastSuggestionTime < 60000 →
      suggestTrack room videoId title connId now
          = (SuggestResult.rateLimited
              ((60000 - (now - room.lastSuggestionTime) + 999) / 1000), room) ∧
      1 ≤ (60000 - (now - room.lastSuggestionTime) + 999) / 1000) ∧
    (60000 ≤ now - room.lastSuggestionTime →
      suggestTrack room videoId title connId now
          = (SuggestResult.accepted true,
             pushSuggestion room videoId title connId now)) := by
  have hany : room.queue.any (fun v => v.id = videoId) = false := by
    by_contra hc
    rw [Bool.not_eq_false, List.any_eq_true] at hc
    obtain ⟨x, hx, hxe⟩ := hc
    exact hdup x hx (by simpa using hxe)
  constructor
  · intro hlt
    constructor
    · unfold suggestTrack
      simp [hany, h5, hlt]
    · exact (Nat.le_div_iff_mul_le (by norm_num)).mpr (by omega)
  · intro hge
    have hnlt : ¬ (now - room.lastSuggestionTime < 60000) := by omega
    unfold suggestTrack
    simp [hany, h5, hnlt]

/-- Claim C6 witness: the amended cooldown behaviour on a concrete crowded
room with a fresh trackId. -/
theorem suggest_cooldown_C6_witness :
    (30000 - room5C6.lastSuggestionTime < 60000 →
      suggestTrack room5C6 "v9" "T" "g1" 30000
          = (SuggestResult.rateLimited
              ((60000 - (30000 - room5C6.lastSuggestionTime) + 999) / 1000), room5C6) ∧
      1 ≤ (60000 - (30000 - room5C6.lastSuggestionTime) + 999) / 1000) ∧
    (60000 ≤ 30000 - room5C6.lastSuggestionTime →
      suggestTrack room5C6 "v9" "T" "g1" 30000
          = (SuggestResult.accepted true,
             pushSuggestion room5C6 "v9" "T" "g1" 30000)) :=
  suggest_cooldown_C6_amended room5C6 "v9" "T" "g1" 30000 (by decide) (by decide)
    (by decide)

/-- Claim C7 (confirmed): for a room with fewer than 5 total participants,
no `suggest-track` call ever fails RateLimited, whatever the timing of the
call and of the previous suggestion. -/
theorem small_rooms_never_rate_limited_C7 (reg : Registry)
    (roomId videoId title connId : String) (now t : Nat)
    (hsmall : ∀ room : Room, roomLookup reg roomId = some room →
      room.guests.length + 1 < 5) :
    (suggestTrackHandler reg roomId videoId title connId now).1
      ≠ SuggestResult.rateLimited t := by
  unfold suggestTrackHandler
  cases hlook : roomLookup reg roomId with
  | none => simp
  | some room =>
    have h5 := hsmall room hlook
    have hn5 : ¬ (5 ≤ room.guests.length + 1) := by omega
    cases hdup : room.queue.any (fun v => v.id = videoId) with
    | true => simp [suggestTrack, hdup]
    | false => simp [suggestTrack, hdup, hn5]

/-- Claim C7 witness: a concrete one-participant room is never
rate-limited, at any timing. -/
theorem small_rooms_never_rate_limited_C7_witness :
    (suggestTrackHandler regSmall "r1" "v9" "T" "c1" 0).1
      ≠ SuggestResult.rateLimited 1 :=
  small_rooms_never_rate_limited_C7 regSmall "r1" "v9" "T" "c1" 0 1
    (by
      intro room h
      have h2 : roomSmallW = room := Option.some.inj h
      rw [← h2]
      decide)

/-- The head of the stable descending sort is the earliest candidate with
the maximal vote count: the list splits into a strict-smaller prefix, the
winner, and a no-larger suffix. -/
theorem sortDesc_head_split : ∀ l : List Candidate, l ≠ [] →
    ∃ pre w post, (sortByVotesDesc l).head? = some w ∧ l = pre ++ w :: post ∧
      (∀ c ∈ pre, c.votes.card < w.votes.card) ∧
      (∀ c ∈ post, c.votes.card ≤ w.votes.card) := by
  intro l
  induction l with
  | nil => intro h; exact absurd rfl h
  | cons c cs ih =>
    intro _
    by_cases h0 : cs = []
    · subst h0
      exact ⟨[], c, [], by simp [sortByVotesDesc, orderedInsertDesc], rfl,
        by simp, by simp⟩
    · obtain ⟨pre1, w1, post1, hh1, hs1, hp1, hq1⟩ := ih h0
      obtain ⟨t, ht⟩ : ∃ t, sortByVotesDesc cs = w1 :: t := by
        cases hsc : sortByVotesDesc cs with
        | nil =>
          rw [hsc] at hh1
          simp at hh1
        | cons a t =>
          rw [hsc] at hh1
          simp at hh1
          exact ⟨t, by rw [hh1]⟩
      by_cases hle : w1.votes.card ≤ c.votes.card
      · refine ⟨[], c, cs, ?_, rfl, by simp, ?_⟩
        · rw [show sortByVotesDesc (c :: cs)
              = orderedInsertDesc c (sortByVotesDesc cs) from rfl, ht]
          simp [orderedInsertDesc, hle]
        · intro x hx
          rw [hs1] at hx
          rcases List.mem_append.1 hx with hx | hx
          · exact le_trans (le_of_lt (hp1 x hx)) hle
          · rcases List.mem_cons.1 hx with rfl | hx
            · exact hle
            · exact le_trans (hq1 x hx) hle
      · push_neg at hle
        refine ⟨c :: pre1, w1, post1, ?_, by simp [hs1], ?_, hq1⟩
        · rw [show sortByVotesDesc (c :: cs)
              = orderedInsertDesc c (sortByVotesDesc cs) from rfl, ht]
          have hnle : ¬ (w1.votes.card ≤ c.votes.card) := by omega
          simp [orderedInsertDesc, hnle]
        · intro x hx
          rcases List.mem_cons.1 hx with rfl | hx
          · exact hle
          · exact hp1 x hx

/-- Filtering by an id that occurs nowhere in the list keeps every entry. -/
theorem filter_id_keep : ∀ (l : List Candidate) (x : String),
    (∀ c ∈ l, c.id ≠ x) → l.filter (fun v => v.id ≠ x) = l := by
  intro l x
  induction l with
  | nil => intro _; rfl
  | cons c cs ih =>
    intro h
    have hc := h c (List.mem_cons_self c cs)
    simp [List.filter_cons, hc]
    intro a ha
    exact h a (List.mem_cons_of_mem c ha)

/-- Claim C2 (confirmed): on a host call with a non-empty queue of distinct
track ids, play-top-voted selects the candidate with the greatest vote
count, breaking ties by earliest insertion (everything before the winner
has strictly fewer votes, everything in the queue has no more), sets
`currentVideoId` to it, state PLAYING, seek 0, and removes exactly the
winner, the rest keeping their relative order. -/
theorem play_top_voted_selects_max_C2 (room : Room) (caller : String)
    (hhost : room.hostId = caller)
    (hne : room.queue ≠ [])
    (hnodup : (room.queue.map Candidate.id).Nodup) :
    ∃ pre w post,
      room.queue = pre ++ w :: post ∧
      (∀ c ∈ pre, c.votes.card < w.votes.card) ∧
      (∀ c ∈ room.queue, c.votes.card ≤ w.votes.card) ∧
      playTopVoted room caller =
        { room with
            currentVideoId := w.id
            playbackState := "PLAYING"
            lastSeekTime := 0
            queue := pre ++ post } := by
  obtain ⟨pre, w, post, hh, hs, hp, hq⟩ := sortDesc_head_split room.queue hne
  have hnodup2 := hnodup
  rw [hs, List.map_append, List.map_cons] at hnodup2
  rcases List.nodup_append.1 hnodup2 with ⟨_, h2, hdisj⟩
  have hpost_nodup := (List.nodup_cons.1 h2).1
  have hpre_ne : ∀ c ∈ pre, c.id ≠ w.id := by
    intro c hc he
    exact hdisj (List.mem_map_of_mem Candidate.id hc)
      (by rw [he]; exact List.mem_cons_self _ _)
  have hpost_ne : ∀ c ∈ post, c.id ≠ w.id := by
    intro c hc he
    exact hpost_nodup (he ▸ List.mem_map_of_mem Candidate.id hc)
  have hfil : room.queue.filter (fun v => v.id ≠ w.id) = pre ++ post := by
    rw [hs, List.filter_append]
    rw [filter_id_keep pre w.id hpre_ne]
    rw [show (w :: post).filter (fun v => v.id ≠ w.id)
        = post.filter (fun v => v.id ≠ w.id) from by simp [List.filter_cons]]
    rw [filter_id_keep post w.id hpost_ne]
  refine ⟨pre, w, post, hs, hp, ?_, ?_⟩
  · intro x hx
    rw [hs] at hx
    rcases List.mem_append.1 hx with hx | hx
    · exact le_of_lt (hp x hx)
    · rcases List.mem_cons.1 hx with rfl | hx
      · exact le_refl _
      · exact hq x hx
  · have hlen : ¬ (room.queue.length = 0) := by
      simpa [List.length_eq_zero] using hne
    unfold playTopVoted
    rw [if_pos hhost, if_neg hlen, hh]
    show { room with
        currentVideoId := w.id
        playbackState := "PLAYING"
        lastSeekTime := 0
        queue := room.queue.filter (fun v => v.id ≠ w.id) } = _
    rw [hfil]

/-- Claim C2 witness: a concrete two-candidate queue where the later
candidate has strictly more votes. -/
theorem play_top_voted_selects_max_C2_witness :
    ∃ pre w post,
      roomW2.queue = pre ++ w :: post ∧
      (∀ c ∈ pre, c.votes.card < w.votes.card) ∧
      (∀ c ∈ roomW2.queue, c.votes.card ≤ w.votes.card) ∧
      playTopVoted roomW2 "h" =
        { roomW2 with
            currentVideoId := w.id
            playbackState := "PLAYING"
            lastSeekTime := 0
            queue := pre ++ post } :=
  play_top_voted_selects_max_C2 roomW2 "h" rfl (by decide) (by decide)

/-- A roster in which nobody matches the leaver yields no removal. -/
theorem removeGuest_none (c : String) : ∀ l : List Participant,
    (∀ g ∈ l, g.id ≠ c) → removeGuest c l = none := by
  intro l
  induction l with
  | nil => intro _; rfl
  | cons g gs ih =>
    intro h
    have hg := h g (List.mem_cons_self g gs)
    simp [removeGuest, hg, ih (fun d hd => h d (List.mem_cons_of_mem g hd))]

/-- `findIndex`/`splice` removes exactly the first matching participant. -/
theorem removeGuest_split (c : String) (g : Participant) (hg : g.id = c) :
    ∀ (gpre gpost : List Participant), (∀ x ∈ gpre, x.id ≠ c) →
      removeGuest c (gpre ++ g :: gpost) = some (g, gpre ++ gpost) := by
  intro gpre
  induction gpre with
  | nil =>
    intro gpost _
    simp [removeGuest, hg]
  | cons y ys ih =>
    intro gpost h
    have hy := h y (List.mem_cons_self y ys)
    simp [removeGuest, hy, ih gpost (fun d hd => h d (List.mem_cons_of_mem y hd))]

/-- The `for ... in` loop passes over every room in which the leaver is
neither host nor guest, leaving those entries untouched. -/
theorem disconnect_skip (c : String) : ∀ pre rest : Registry,
    (∀ p ∈ pre, p.2.hostId ≠ c ∧ ∀ g ∈ p.2.guests, g.id ≠ c) →
    disconnect c (pre ++ rest)
      = (pre ++ (disconnect c rest).1, (disconnect c rest).2) := by
  intro pre
  induction pre with
  | nil =>
    intro rest _
    simp
  | cons p ps ih =>
    intro rest h
    obtain ⟨k, r⟩ := p
    have hp := h (k, r) (List.mem_cons_self _ _)
    have h1 : r.hostId ≠ c := hp.1
    have h2 : ∀ g ∈ r.guests, g.id ≠ c := hp.2
    have hrec := ih rest (fun d hd => h d (List.mem_cons_of_mem _ hd))
    simp [disconnect, h1, removeGuest_none c r.guests h2, hrec]

/-- A key matching no entry looks up to `none`. -/
theorem roomLookup_none (rid : String) : ∀ reg : Registry,
    (∀ p ∈ reg, p.1 ≠ rid) → roomLookup reg rid = none := by
  intro reg
  induction reg with
  | nil => intro _; rfl
  | cons p ps ih =>
    intro h
    obtain ⟨k, r⟩ := p
    have hk : k ≠ rid := h (k, r) (List.mem_cons_self _ _)
    simp [roomLookup, hk, ih (fun d hd => h d (List.mem_cons_of_mem _ hd))]

/-- Claim C4 counterexample: when the same connection `h` hosts two rooms,
its disconnect removes only the first; the second room it hosts survives
and a subsequent join-room on it succeeds instead of failing NotFound. -/
theorem host_disconnect_second_room_C4_cex :
    roomLookup regC4 "r2" = some (createRoom "h" (some 5)) ∧
    (createRoom "h" (some 5)).hostId = "h" ∧
    roomLookup ((disconnect "h" regC4).1) "r2" = some (createRoom "h" (some 5)) ∧
    (joinRoom ((disconnect "h" regC4).1) "r2" "Dave" "d1" true).ack
      = some JoinAck.success := by
  decide

/-- Claim C4 as amended: for the FIRST room in registry insertion order in
which the disconnecting connection appears (as host or guest), if that
connection is its host, the room is removed entirely after the room-closed
notice, and a subsequent join-room for its RoomId fails NotFound; rooms
the connection hosts further down the iteration are not torn down. -/
theorem host_disconnect_first_room_C4_amended
    (pre post : Registry) (rid : String) (room : Room) (c : String)
    (hkpre : ∀ p ∈ pre, p.1 ≠ rid)
    (hkpost : ∀ p ∈ post, p.1 ≠ rid)
    (hpre : ∀ p ∈ pre, p.2.hostId ≠ c ∧ ∀ g ∈ p.2.guests, g.id ≠ c)
    (hhost : room.hostId = c) :
    disconnect c (pre ++ (rid, room) :: post) = (pre ++ post, [Emit.hostLeft rid]) ∧
    roomLookup (pre ++ post) rid = none ∧
    ∀ (dn conn : String) (pOk : Bool),
      (joinRoom (pre ++ post) rid dn conn pOk).ack
        = some (JoinAck.failure "Room not found") := by
  have hnone : roomLookup (pre ++ post) rid = none := by
    apply roomLookup_none
    intro p hp
    rcases List.mem_append.1 hp with hp | hp
    · exact hkpre p hp
    · exact hkpost p hp
  refine ⟨?_, hnone, ?_⟩
  · rw [disconnect_skip c pre ((rid, room) :: post) hpre]
    simp [disconnect, hhost]
  · intro dn conn pOk
    simp [joinRoom, hnone]

/-- Claim C4 witness: a single-room registry hosted by the leaver is gone
after the disconnect and the join fails NotFound. -/
theorem host_disconnect_first_room_C4_witness :
    (joinRoom [] "r1" "Dave" "d1" true).ack
      = some (JoinAck.failure "Room not found") :=
  (host_disconnect_first_room_C4_amended [] [] "r1" (createRoom "c" none) "c"
    (by decide) (by decide) (by decide) rfl).2.2 "Dave" "d1" true

/-- Claim C8 counterexample: Carol is a guest (not the host) of room `r2`,
but because the disconnect loop breaks at the first room containing her,
her disconnect leaves the `r2` roster completely unchanged — the
participant is not removed there. -/
theorem guest_disconnect_second_room_C8_cex :
    partC ∈ roomR2C8.guests ∧
    roomR2C8.hostId ≠ partC.id ∧
    roomLookup ((disconnect partC.id regC8).1) "r2" = some roomR2C8 ∧
    roomR2C8.guests ≠ [] := by
  decide

/-- Claim C8 as amended: when the disconnecting connection is a guest (not
the host) of a room and that room is the FIRST in registry insertion order
in which the connection appears at all, exactly that participant is spliced
out of the roster while every other field of the room — queue,
currentVideoId, playbackState, lastSeekTime, hostId, maxGuests — and every
other room are unchanged, and the room itself survives. -/
theorem guest_disconnect_frame_C8_amended
    (pre post : Registry) (rid : String) (room : Room) (c : String)
    (hpre : ∀ p ∈ pre, p.2.hostId ≠ c ∧ ∀ g ∈ p.2.guests, g.id ≠ c)
    (hnothost : room.hostId ≠ c)
    (gpre gpost : List Participant) (g : Participant)
    (hsplit : room.guests = gpre ++ g :: gpost)
    (hg : g.id = c)
    (hgpre : ∀ x ∈ gpre, x.id ≠ c) :
    disconnect c (pre ++ (rid, room) :: post)
      = (pre ++ (rid, { room with guests := gpre ++ gpost }) :: post,
         [Emit.leftMessage rid g.username]) := by
  rw [disconnect_skip c pre ((rid, room) :: post) hpre]
  have hrg : removeGuest c room.guests = some (g, gpre ++ gpost) := by
    rw [hsplit]
    exact removeGuest_split c g hg gpre gpost hgpre
  simp [disconnect, hnothost, hrg]

/-- Claim C8 witness: Carol leaving a concrete single room removes exactly
her and emits only the system left message. -/
theorem guest_disconnect_frame_C8_witness :
    disconnect "c" [( "r2", roomR2C8 )]
      = ([( "r2", { roomR2C8 with guests := [] } )],
         [Emit.leftMessage "r2" "Carol"]) :=
  guest_disconnect_frame_C8_amended [] [] "r2" roomR2C8 "c" (by decide)
    (by decide) [] [] partC rfl rfl (by decide)

end VirtualDJ
